import Mathlib

/-!
Verification of the pingap reverse-proxy core against its source.

Each Rust function relevant to the checked properties is shallowly embedded
as an executable Lean definition; machine integers are `Nat`/`Int` with
explicit `% 2 ^ 32` where the Rust code casts, byte buffers are `List Nat`,
and fallible or panicking code returns `Option`/`Except`.
-/

namespace Pingap

/-- Byte buffers (`Vec<u8>`); each entry is a byte value. -/
abbrev Bytes := List Nat

/-- Bytes of a Lean string, modelling a Rust byte-string literal. -/
def strBytes (s : String) : Bytes :=
  s.data.map Char.toNat

/-! ## Cache object codec (`src/cache/http_cache.rs`) -/

/-- `CacheObject { meta: (Vec<u8>, Vec<u8>), body: Vec<u8> }`. -/
structure CacheObject where
  meta : Bytes × Bytes
  body : Bytes
deriving Repr, DecidableEq

/-- The `Default` cache object: empty meta pair, empty body. -/
def CacheObject.defaultObj : CacheObject :=
  ⟨([], []), []⟩

/-- Big-endian bytes of the low 32 bits of `n`, as written by
`buf.put_u32(n as u32)`. -/
def u32be (n : Nat) : Bytes :=
  [n / 16777216 % 256, n / 65536 % 256, n / 256 % 256, n % 256]

/-- Fold big-endian bytes into a number (`u32::from_be_bytes`). -/
def beNat (l : Bytes) : Nat :=
  l.foldl (fun acc b => acc * 256 + b) 0

/-- The number encoded by the four bytes of `v` starting at `off`. -/
def readBe4 (v : Bytes) (off : Nat) : Nat :=
  beNat ((v.drop off).take 4)

/-- Rust slice `&v[s..e]`: `none` models the panic when `s > e` or
`e > v.len()`. -/
def slice (v : Bytes) (s e : Nat) : Option Bytes :=
  if s ≤ e ∧ e ≤ v.length then some ((v.drop s).take (e - s)) else none

/-- `impl From<CacheObject> for Vec<u8>`: two big-endian `u32` lengths,
then `meta.0`, `meta.1` and the body. -/
def CacheObject.toBytes (x : CacheObject) : Bytes :=
  u32be x.meta.1.length ++ u32be x.meta.2.length ++
    x.meta.1 ++ x.meta.2 ++ x.body

/-- `impl From<Vec<u8>> for CacheObject`: buffers shorter than 8 bytes give
the default object; otherwise the two meta sections are sliced out using the
decoded lengths and the rest is the body. `none` models a slice panic. -/
def CacheObject.fromBytes (v : Bytes) : Option CacheObject :=
  if v.length < 8 then
    some CacheObject.defaultObj
  else
    let meta0Size := readBe4 v 0
    let meta1Size := readBe4 v 4
    match slice v 8 (8 + meta0Size) with
    | none => none
    | some meta0 =>
      match slice v (8 + meta0Size) (8 + meta0Size + meta1Size) with
      | none => none
      | some meta1 =>
        match slice v (8 + meta0Size + meta1Size) v.length with
        | none => none
        | some body => some ⟨(meta0, meta1), body⟩

theorem beNat_u32be (n : Nat) : beNat (u32be n) = n % 4294967296 := by
  simp only [beNat, u32be, List.foldl]
  omega

/-- The reads and slices performed by the decoder on an encoded buffer. -/
theorem codecComponents (a b c : Bytes)
    (ha : a.length < 4294967296) (hb : b.length < 4294967296) :
    let enc := u32be a.length ++ u32be b.length ++ a ++ b ++ c
    (readBe4 enc 0 = a.length ∧ readBe4 enc 4 = b.length) ∧
    (slice enc 8 (8 + a.length) = some a ∧
      slice enc (8 + a.length) (8 + a.length + b.length) = some b ∧
      slice enc (8 + a.length + b.length) enc.length = some c) := by
  intro enc
  have h4a : (u32be a.length).length = 4 := rfl
  have h4b : (u32be b.length).length = 4 := rfl
  have h8 : (u32be a.length ++ u32be b.length).length = 8 := by
    simp [u32be]
  have h8a : ((u32be a.length ++ u32be b.length) ++ a).length = 8 + a.length := by
    simp [u32be]
    omega
  have h8ab : (((u32be a.length ++ u32be b.length) ++ a) ++ b).length
      = 8 + a.length + b.length := by
    simp [u32be]
    omega
  have hassoc1 : enc = u32be a.length ++ (u32be b.length ++ (a ++ (b ++ c))) := by
    simp [enc, List.append_assoc]
  have hassoc2 : enc = (u32be a.length ++ u32be b.length) ++ (a ++ (b ++ c)) := by
    simp [enc, List.append_assoc]
  have hassoc3 : enc = ((u32be a.length ++ u32be b.length) ++ a) ++ (b ++ c) := by
    simp [enc, List.append_assoc]
  have hassoc4 : enc = (((u32be a.length ++ u32be b.length) ++ a) ++ b) ++ c := by
    simp [enc, List.append_assoc]
  have hlen : enc.length = 8 + (a.length + (b.length + c.length)) := by
    simp [enc, u32be]
    omega
  have hm0 : readBe4 enc 0 = a.length := by
    rw [readBe4, List.drop_zero, hassoc1, List.take_left' h4a,
      beNat_u32be, Nat.mod_eq_of_lt ha]
  have hm1 : readBe4 enc 4 = b.length := by
    rw [readBe4, hassoc1, List.drop_left' h4a, List.take_left' h4b,
      beNat_u32be, Nat.mod_eq_of_lt hb]
  refine ⟨⟨hm0, hm1⟩, ?_, ?_, ?_⟩
  · rw [slice, if_pos (by constructor <;> omega)]
    rw [hassoc2, List.drop_left' h8]
    congr 1
    rw [show 8 + a.length - 8 = a.length from by omega, List.take_left]
  · rw [slice, if_pos (by constructor <;> omega)]
    rw [hassoc3, List.drop_left' h8a]
    congr 1
    rw [show 8 + a.length + b.length - (8 + a.length) = b.length from by omega,
      List.take_left]
  · rw [slice, if_pos (by constructor <;> omega)]
    rw [hassoc4, List.drop_left' h8ab]
    congr 1
    rw [hlen,
      show 8 + (a.length + (b.length + c.length)) - (8 + a.length + b.length)
        = c.length from by omega]
    exact List.take_length c

/-- Decoding an encoded object recovers it when both meta lengths fit `u32`. -/
theorem fromBytes_toBytes (a b c : Bytes)
    (ha : a.length < 4294967296) (hb : b.length < 4294967296) :
    CacheObject.fromBytes (CacheObject.toBytes ⟨(a, b), c⟩) = some ⟨(a, b), c⟩ := by
  obtain ⟨⟨hm0, hm1⟩, hs0, hs1, hs2⟩ := codecComponents a b c ha hb
  have hlen : (u32be a.length ++ u32be b.length ++ a ++ b ++ c).length
      = 8 + (a.length + (b.length + c.length)) := by
    simp [u32be]
    omega
  show CacheObject.fromBytes (u32be a.length ++ u32be b.length ++ a ++ b ++ c)
      = some ⟨(a, b), c⟩
  rw [CacheObject.fromBytes, if_neg (by omega)]
  simp only [hm0, hm1, hs0, hs1, hs2]

/-- Buffers shorter than 8 bytes decode to the default object. -/
theorem fromBytes_short (v : Bytes) (h : v.length < 8) :
    CacheObject.fromBytes v = some CacheObject.defaultObj := by
  rw [CacheObject.fromBytes, if_pos h]

set_option maxRecDepth 8192 in
/-- When the first meta section is exactly `2 ^ 32` bytes long, its encoded
length truncates to zero and the decoder misparses the buffer. -/
theorem fromBytes_toBytes_huge (r : Bytes) (hr : r.length = 4294967296) :
    CacheObject.fromBytes (CacheObject.toBytes ⟨(r, []), []⟩)
      = some ⟨(([] : Bytes), ([] : Bytes)), r⟩ := by
  have hu : u32be 4294967296 = [0, 0, 0, 0] := by norm_num [u32be]
  have henc : CacheObject.toBytes ⟨(r, []), []⟩
      = ([0, 0, 0, 0] ++ [0, 0, 0, 0]) ++ r := by
    rw [CacheObject.toBytes]
    show u32be r.length ++ u32be ([] : Bytes).length ++ r ++ [] ++ [] = _
    rw [hr, hu, List.append_nil, List.append_nil]
    rfl
  have h8 : (([0, 0, 0, 0] ++ [0, 0, 0, 0]) : Bytes).length = 8 := rfl
  have hlen : ((([0, 0, 0, 0] ++ [0, 0, 0, 0]) ++ r) : Bytes).length
      = 8 + 4294967296 := by
    rw [List.length_append, h8, hr]
  have hre : (([0, 0, 0, 0] ++ [0, 0, 0, 0]) ++ r : Bytes)
      = [0, 0, 0, 0] ++ ([0, 0, 0, 0] ++ r) := by
    rw [List.append_assoc]
  have hm0 : readBe4 ((([0, 0, 0, 0] ++ [0, 0, 0, 0]) ++ r) : Bytes) 0 = 0 := by
    rw [readBe4, List.drop_zero, hre,
      List.take_left' (show ([0, 0, 0, 0] : Bytes).length = 4 from rfl)]
    rfl
  have hm1 : readBe4 ((([0, 0, 0, 0] ++ [0, 0, 0, 0]) ++ r) : Bytes) 4 = 0 := by
    rw [readBe4, hre,
      List.drop_left' (show ([0, 0, 0, 0] : Bytes).length = 4 from rfl),
      List.take_left' (show ([0, 0, 0, 0] : Bytes).length = 4 from rfl)]
    rfl
  have hs0 : slice ((([0, 0, 0, 0] ++ [0, 0, 0, 0]) ++ r) : Bytes) 8 (8 + 0)
      = some [] := by
    rw [slice, if_pos ⟨by omega, by rw [hlen]; omega⟩]
    rfl
  have hs1 : slice ((([0, 0, 0, 0] ++ [0, 0, 0, 0]) ++ r) : Bytes) (8 + 0) (8 + 0 + 0)
      = some [] := by
    rw [slice, if_pos ⟨by omega, by rw [hlen]; omega⟩]
    rfl
  have hs2 : slice ((([0, 0, 0, 0] ++ [0, 0, 0, 0]) ++ r) : Bytes) (8 + 0 + 0)
        ((([0, 0, 0, 0] ++ [0, 0, 0, 0]) ++ r) : Bytes).length
      = some r := by
    rw [slice, if_pos ⟨by rw [hlen]; omega, by omega⟩]
    rw [show (8 + 0 + 0) = 8 from rfl, List.drop_left' h8, hlen]
    congr 1
    rw [show 8 + 4294967296 - 8 = 4294967296 from by omega]
    conv_lhs => rw [← hr]
    exact List.take_length r
  rw [henc, CacheObject.fromBytes, if_neg (by rw [hlen]; omega)]
  simp only [hm0, hm1, hs0, hs1, hs2]

/-- C1 (counterexample): the round trip fails for the cache object whose
first meta section is `2 ^ 32` zero bytes — the length written by
`put_u32(len as u32)` truncates to 0 and decoding returns a different
object, so `CacheObject::from(Vec::<u8>::from(x)) == x` does not hold for
every `CacheObject`. -/
theorem cacheObject_roundtrip_counterexample :
    CacheObject.fromBytes
        (CacheObject.toBytes ⟨(List.replicate 4294967296 0, []), []⟩)
      ≠ some ⟨(List.replicate 4294967296 0, []), []⟩ := by
  have hrep : (List.replicate 4294967296 (0 : Nat)).length = 4294967296 :=
    List.length_replicate 4294967296 0
  rw [fromBytes_toBytes_huge (List.replicate 4294967296 0) hrep]
  intro h
  have h2 := Option.some.inj h
  have h4 : ([] : Bytes) = List.replicate 4294967296 0 :=
    congrArg (fun o => o.meta.1) h2
  have h5 := congrArg List.length h4
  rw [List.length_nil, hrep] at h5
  exact absurd h5 (by norm_num)

/-- C1 (amended): for every `CacheObject` whose meta sections are each
shorter than `2 ^ 32` bytes, decoding the encoded byte form yields the
object again, and every buffer of fewer than 8 bytes decodes to the
defaulted object with empty meta pair and empty body. -/
theorem cacheObject_roundtrip (x : CacheObject) (v : Bytes)
    (h0 : x.meta.1.length < 4294967296) (h1 : x.meta.2.length < 4294967296)
    (hv : v.length < 8) :
    CacheObject.fromBytes (CacheObject.toBytes x) = some x ∧
    CacheObject.fromBytes v = some CacheObject.defaultObj := by
  obtain ⟨⟨m0, m1⟩, bd⟩ := x
  exact ⟨fromBytes_toBytes m0 m1 bd h0 h1, fromBytes_short v hv⟩

/-- C1 (witness): the round trip at the cache object of the spec's
round-trip scenario and the short buffer `[1, 2, 3]`. -/
theorem cacheObject_roundtrip_witness :
    CacheObject.fromBytes
        (CacheObject.toBytes
          ⟨(strBytes "Hello", strBytes "World"), strBytes "Hello World!"⟩)
      = some ⟨(strBytes "Hello", strBytes "World"), strBytes "Hello World!"⟩ ∧
    CacheObject.fromBytes [1, 2, 3] = some CacheObject.defaultObj :=
  cacheObject_roundtrip
    ⟨(strBytes "Hello", strBytes "World"), strBytes "Hello World!"⟩
    [1, 2, 3] (by decide) (by decide) (by decide)

/-- C10: for every buffer of length at least 8 whose two decoded big-endian
`u32` lengths overrun the buffer (`8 + meta0_len + meta1_len > len`),
`CacheObject::from` panics on out-of-range slice indexing (modelled as
`none`) instead of returning a defaulted or truncated object. -/
theorem cacheObject_fromBytes_oversized (v : Bytes) (h8 : ¬ v.length < 8)
    (hov : v.length < 8 + readBe4 v 0 + readBe4 v 4) :
    CacheObject.fromBytes v = none := by
  rw [CacheObject.fromBytes, if_neg h8]
  show (match slice v 8 (8 + readBe4 v 0) with
    | none => none
    | some meta0 =>
      match slice v (8 + readBe4 v 0) (8 + readBe4 v 0 + readBe4 v 4) with
      | none => none
      | some meta1 =>
        match slice v (8 + readBe4 v 0 + readBe4 v 4) v.length with
        | none => none
        | some body => some (CacheObject.mk (meta0, meta1) body)) = none
  by_cases hc : 8 + readBe4 v 0 ≤ v.length
  · rw [show slice v (8 + readBe4 v 0) (8 + readBe4 v 0 + readBe4 v 4) = none from by
      rw [slice, if_neg (fun hh => absurd hh.2 (by omega))]]
    rw [show slice v 8 (8 + readBe4 v 0)
        = some ((v.drop 8).take (8 + readBe4 v 0 - 8)) from by
      rw [slice, if_pos ⟨by omega, hc⟩]]
  · rw [show slice v 8 (8 + readBe4 v 0) = none from by
      rw [slice, if_neg (fun hh => absurd hh.2 (by omega))]]

/-- C10 (witness): a 9-byte buffer claiming a 10-byte first meta section
decodes to a panic. -/
theorem cacheObject_fromBytes_oversized_witness :
    ¬ ([0, 0, 0, 10, 0, 0, 0, 0, 9] : Bytes).length < 8 ∧
    ([0, 0, 0, 10, 0, 0, 0, 0, 9] : Bytes).length
      < 8 + readBe4 [0, 0, 0, 10, 0, 0, 0, 0, 9] 0
          + readBe4 [0, 0, 0, 10, 0, 0, 0, 0, 9] 4 ∧
    CacheObject.fromBytes [0, 0, 0, 10, 0, 0, 0, 0, 9] = none :=
  ⟨by decide, by decide,
    cacheObject_fromBytes_oversized [0, 0, 0, 10, 0, 0, 0, 0, 9]
      (by decide) (by decide)⟩

/-! ## Cache hit handle (`CompleteHit`, src/cache/http_cache.rs) -/

/-- `CompleteHit { body, done, range_start, range_end }`. -/
structure CompleteHit where
  body : Bytes
  done : Bool
  range_start : Nat
  range_end : Nat
deriving Repr, DecidableEq

/-- Cache-layer errors (`Error::Invalid { message }`). -/
inductive CacheError where
  | invalid (message : String)
deriving Repr, DecidableEq

instance {e a : Type} [DecidableEq e] [DecidableEq a] :
    DecidableEq (Except e a) := fun x y =>
  match x, y with
  | .error u, .error v =>
    if h : u = v then isTrue (by rw [h])
    else isFalse (by intro hh; injection hh; contradiction)
  | .ok u, .ok v =>
    if h : u = v then isTrue (by rw [h])
    else isFalse (by intro hh; injection hh; contradiction)
  | .error _, .ok _ => isFalse (by intro hh; injection hh)
  | .ok _, .error _ => isFalse (by intro hh; injection hh)

/-- The hit handler built by `HttpCache::lookup`: whole body readable. -/
def newCompleteHit (body : Bytes) : CompleteHit :=
  { body := body, done := false, range_start := 0, range_end := body.length }

/-- `CompleteHit::get`: `none` once done, else the bytes of
`body[range_start..range_end]` and the handle marked done. The outer
`none` models the slice panic when the stored range is invalid. -/
def CompleteHit.get (h : CompleteHit) : Option (Option Bytes × CompleteHit) :=
  if h.done then
    some (none, h)
  else
    match slice h.body h.range_start h.range_end with
    | none => none
    | some b => some (some b, { h with done := true })

/-- `CompleteHit::seek`: fails with `Invalid` when `start >= body.len()`;
otherwise stores `range_start`, clamps `range_end` to
`min(body.len(), end)` when an end is given (keeping it otherwise), and
clears `done` so the handle can be read again. -/
def CompleteHit.seek (h : CompleteHit) (start : Nat) (stop : Option Nat) :
    Except CacheError CompleteHit :=
  if start ≥ h.body.length then
    .error (.invalid ("seek start out of range " ++ toString start ++ " >= "
      ++ toString h.body.length))
  else
    .ok { h with
      range_start := start,
      range_end := match stop with
        | some e => min h.body.length e
        | none => h.range_end,
      done := false }

/-! ## File cache storage (`src/cache/file.rs`) and `HttpCache::purge` -/

/-- I/O failures (`Error::Io`), as raised by `fs::remove_file`. -/
inductive FsError where
  | io
deriving Repr, DecidableEq

/-- `FileCache::put` on the directory tier: writes the encoded object
under the key. The tinyufo admission tier is elided: `remove`, the
subject of the purge claim, never touches it (source: "TODO remove from
tinyufo"). -/
def fileCachePut (key : String) (data : CacheObject)
    (files : List (String × Bytes)) : List (String × Bytes) :=
  (key, CacheObject.toBytes data) :: files

/-- `FileCache::remove`: deletes the key's file, failing like
`fs::remove_file` when it is absent — and always returns `Ok(None)`,
never the removed object. -/
def fileCacheRemove (key : String) (files : List (String × Bytes)) :
    Except FsError (Option CacheObject × List (String × Bytes)) :=
  match files.lookup key with
  | none => .error .io
  | some _ => .ok (none, files.filter (fun p => ¬ p.1 = key))

/-- `HttpCache::purge`: calls the storage `remove`; reports `result.is_some()`
on success and `false` on error. -/
def httpCachePurge (key : String) (files : List (String × Bytes)) :
    Bool × List (String × Bytes) :=
  match fileCacheRemove key files with
  | .ok (result, files') => (result.isSome, files')
  | .error _ => (false, files)

/-- C8 (counterexample): on the 12-byte body, `seek(5, Some(3))` succeeds
and stores the inverted range `[5, 3)`, and the next read panics on slice
indexing (modelled as `none`) instead of returning the bytes of the range,
so the claim's read-back guarantee fails for `end < start`. -/
theorem completeHit_seek_counterexample :
    (newCompleteHit (strBytes "Hello World!")).seek 5 (some 3)
      = .ok { body := strBytes "Hello World!", done := false,
              range_start := 5, range_end := 3 } ∧
    CompleteHit.get { body := strBytes "Hello World!", done := false,
                      range_start := 5, range_end := 3 } = none := by
  decide

/-- C8 (amended): `seek(start, Some(end))` with `start < body_len` stores
the range `[start, min(body_len, end))` and resets the handle; when
additionally `start ≤ end` the next read returns exactly those bytes;
`seek(start, _)` with `start ≥ body_len` fails with `Invalid`. For body
`b"Hello World!"` the initial read returns the full body, `seek(1,
Some(11))` then read returns `b"ello World"`, and `seek(12, None)` fails
with `Invalid`. -/
theorem completeHit_seek_spec (h : CompleteHit) (start e : Nat)
    (h' : CompleteHit) (start' : Nat) (stop : Option Nat)
    (hst : start < h.body.length) (hse : start ≤ e)
    (hfail : h'.body.length ≤ start') :
    h.seek start (some e)
      = .ok { h with
              range_start := start, range_end := min h.body.length e,
              done := false } ∧
    CompleteHit.get { h with
                      range_start := start,
                      range_end := min h.body.length e, done := false }
      = some (some ((h.body.drop start).take (min h.body.length e - start)),
          { h with
            range_start := start, range_end := min h.body.length e,
            done := true }) ∧
    h'.seek start' stop
      = .error (.invalid ("seek start out of range " ++ toString start'
          ++ " >= " ++ toString h'.body.length)) ∧
    (newCompleteHit (strBytes "Hello World!")).get
      = some (some (strBytes "Hello World!"),
          { newCompleteHit (strBytes "Hello World!") with done := true }) ∧
    ((newCompleteHit (strBytes "Hello World!")).seek 1 (some 11)).map
        (fun hh => hh.get)
      = .ok (some (some (strBytes "ello World"),
          { body := strBytes "Hello World!", done := true,
            range_start := 1, range_end := 11 })) ∧
    (newCompleteHit (strBytes "Hello World!")).seek 12 none
      = .error (.invalid "seek start out of range 12 >= 12") := by
  refine ⟨?_, ?_, ?_, by decide, by decide, by decide⟩
  · rw [CompleteHit.seek, if_neg (by omega)]
  · rw [CompleteHit.get]
    rw [if_neg (by simp)]
    rw [show slice h.body start (min h.body.length e)
        = some ((h.body.drop start).take (min h.body.length e - start)) from by
      rw [slice, if_pos ⟨Nat.le_min.mpr ⟨Nat.le_of_lt hst, hse⟩,
        Nat.min_le_left _ _⟩]]
  · rw [CompleteHit.seek.eq_def, if_pos hfail]

/-- C8 (witness): the amended seek specification at the spec's seek-range
scenario: body `b"Hello World!"`, `seek(1, Some(11))`, and the failing
`seek(12, None)`. -/
theorem completeHit_seek_spec_witness :
    (newCompleteHit (strBytes "Hello World!")).seek 1 (some 11)
      = .ok { newCompleteHit (strBytes "Hello World!") with
              range_start := 1,
              range_end := min (strBytes "Hello World!").length 11,
              done := false } ∧
    CompleteHit.get { newCompleteHit (strBytes "Hello World!") with
                      range_start := 1,
                      range_end := min (strBytes "Hello World!").length 11,
                      done := false }
      = some (some (((strBytes "Hello World!").drop 1).take
            (min (strBytes "Hello World!").length 11 - 1)),
          { newCompleteHit (strBytes "Hello World!") with
            range_start := 1,
            range_end := min (strBytes "Hello World!").length 11,
            done := true }) ∧
    (newCompleteHit (strBytes "Hello World!")).seek 12 none
      = .error (.invalid ("seek start out of range " ++ toString 12
          ++ " >= " ++ toString (newCompleteHit (strBytes "Hello World!")).body.length)) ∧
    (newCompleteHit (strBytes "Hello World!")).get
      = some (some (strBytes "Hello World!"),
          { newCompleteHit (strBytes "Hello World!") with done := true }) ∧
    ((newCompleteHit (strBytes "Hello World!")).seek 1 (some 11)).map
        (fun hh => hh.get)
      = .ok (some (some (strBytes "ello World"),
          { body := strBytes "Hello World!", done := true,
            range_start := 1, range_end := 11 })) ∧
    (newCompleteHit (strBytes "Hello World!")).seek 12 none
      = .error (.invalid "seek start out of range 12 >= 12") := by
  obtain ⟨h1, h2, h3, h4, h5, h6⟩ :=
    completeHit_seek_spec (newCompleteHit (strBytes "Hello World!")) 1 11
      (newCompleteHit (strBytes "Hello World!")) 12 none
      (by decide) (by decide) (by decide)
  exact ⟨h1, h2, h3, h4, h5, h6⟩

/-- C6 (code evaluated at the failing input): after a successful put of key
`"k"`, `purge` removes the file (the key is gone afterwards) yet returns
`false`, because `FileCache::remove` always returns `Ok(None)`; purge of
the now-absent key also returns `false`. -/
theorem httpCachePurge_after_put_false :
    ((fileCachePut "k"
        ⟨(strBytes "Hello", strBytes "World"), strBytes "Hello World!"⟩ []).lookup
      "k").isSome = true ∧
    (httpCachePurge "k"
        (fileCachePut "k"
          ⟨(strBytes "Hello", strBytes "World"), strBytes "Hello World!"⟩ [])).1
      = false ∧
    ((httpCachePurge "k"
        (fileCachePut "k"
          ⟨(strBytes "Hello", strBytes "World"), strBytes "Hello World!"⟩ [])).2).lookup
      "k" = none ∧
    (httpCachePurge "k" ([] : List (String × Bytes))).1 = false := by
  decide

/-! ## TLS validity checker (`src/acme/validity_checker.rs`) -/

/-- `CertificateInfo { not_after, not_before, issuer }` (seconds since
epoch as `i64`). -/
structure CertificateInfo where
  not_after : Int
  not_before : Int
  issuer : String
deriving Repr, DecidableEq

/-- The `format!` string of the will-expire branch. -/
def expiredMessage (name : String) (cert : CertificateInfo) : String :=
  name ++ " cert will be expired, issuer: " ++ cert.issuer
    ++ ", expired date: " ++ toString cert.not_after

/-- The `format!` string of the not-yet-valid branch. -/
def notValidMessage (name : String) (cert : CertificateInfo) : String :=
  name ++ " cert is not valid, issuer: " ++ cert.issuer
    ++ ", valid date: " ++ toString cert.not_before

/-- `validity_check`, with the clock read `util::now().as_secs() as i64`
passed in as `now`. Returns `Err` at the first failing entry. -/
def validity_check :
    List (String × CertificateInfo) → Int → Int → Except String Unit
  | [], _, _ => .ok ()
  | (name, cert) :: rest, time_offset, now =>
    if now > cert.not_after - time_offset then
      .error (expiredMessage name cert)
    else if now < cert.not_before then
      .error (notValidMessage name cert)
    else
      validity_check rest time_offset now

/-- Webhook notification severity (`webhook::NotificationLevel`). -/
inductive NotificationLevel where
  | info
  | warn
  | error
deriving Repr, DecidableEq

/-- Webhook notification category (`webhook::NotificationCategory`). -/
inductive NotificationCategory where
  | tlsValidity
  | serviceDiscoverFail
deriving Repr, DecidableEq

/-- `webhook::SendNotificationParams`. -/
structure SendNotificationParams where
  level : NotificationLevel
  category : NotificationCategory
  msg : String
deriving Repr, DecidableEq

/-- `ValidityChecker::run`: on a failing check it sends one Warn /
TlsValidity webhook carrying the message; it always returns `None` so the
periodic task keeps running. The returned list is the webhooks sent. -/
def validityCheckerRun (l : List (String × CertificateInfo))
    (time_offset now : Int) : List SendNotificationParams × Option Bool :=
  match validity_check l time_offset now with
  | .error message => ([⟨.warn, .tlsValidity, message⟩], none)
  | .ok _ => ([], none)

/-- Whether one entry trips either validity check. -/
def entryFails (time_offset now : Int) (p : String × CertificateInfo) : Bool :=
  decide (now > p.2.not_after - time_offset) || decide (now < p.2.not_before)

/-- C9: on the spec's validity-warning scenario — the single certificate
with `not_before = not_after = 2651852800`, issuer `"pingap"`, offset
`604800` — any `now` before `not_before` that does not also trip the
will-expire check yields exactly the claimed message. -/
theorem validity_check_not_valid_scenario (now : Int)
    (h1 : now < 2651852800) (h2 : now ≤ 2651852800 - 604800) :
    validity_check [("Pingap", ⟨2651852800, 2651852800, "pingap"⟩)] 604800 now
      = .error
        "Pingap cert is not valid, issuer: pingap, valid date: 2651852800" := by
  rw [validity_check,
    if_neg (show ¬ now > (2651852800 : Int) - 604800 from by omega),
    if_pos h1]
  decide

/-- C9 (witness): the scenario at `now = 1000000000`. -/
theorem validity_check_not_valid_scenario_witness :
    validity_check [("Pingap", ⟨2651852800, 2651852800, "pingap"⟩)]
        604800 1000000000
      = .error
        "Pingap cert is not valid, issuer: pingap, valid date: 2651852800" :=
  validity_check_not_valid_scenario 1000000000 (by decide) (by decide)

/-- C7 (counterexample): with two entries that are both not yet valid, one
run emits a single webhook for the first entry only — the second failing
entry is never examined, refuting "a Warn webhook for every failing entry;
a single failing entry does not stop the remaining entries". -/
theorem validity_check_counterexample :
    validityCheckerRun
        [("A", ⟨100, 50, "ia"⟩), ("B", ⟨100, 50, "ib"⟩)] 0 10
      = ([⟨.warn, .tlsValidity, notValidMessage "A" ⟨100, 50, "ia"⟩⟩], none) ∧
    validity_check [("B", ⟨100, 50, "ib"⟩)] 0 10
      = .error (notValidMessage "B" ⟨100, 50, "ib"⟩) ∧
    (validityCheckerRun
        [("A", ⟨100, 50, "ia"⟩), ("B", ⟨100, 50, "ib"⟩)] 0 10).1.length
      = 1 := by
  decide

/-- C7 (amended): one run examines entries in list order and stops at the
first entry that is expiring (`now > not_after - offset`, checked first)
or not yet valid (`now < not_before`), emitting exactly one Warn /
TlsValidity webhook with that entry's message; when no entry fails, no
webhook is emitted; the run always returns `None` so the periodic task
continues. -/
theorem validity_check_first_failing (l : List (String × CertificateInfo))
    (time_offset now : Int) :
    validity_check l time_offset now
      = (match l.find? (entryFails time_offset now) with
        | none => .ok ()
        | some (name, cert) =>
          .error (if now > cert.not_after - time_offset
            then expiredMessage name cert
            else notValidMessage name cert)) ∧
    validityCheckerRun l time_offset now
      = (match l.find? (entryFails time_offset now) with
        | none => ([], none)
        | some (name, cert) =>
          ([⟨.warn, .tlsValidity,
            if now > cert.not_after - time_offset
            then expiredMessage name cert
            else notValidMessage name cert⟩], none)) := by
  have h1 : validity_check l time_offset now
      = (match l.find? (entryFails time_offset now) with
        | none => .ok ()
        | some (name, cert) =>
          .error (if now > cert.not_after - time_offset
            then expiredMessage name cert
            else notValidMessage name cert)) := by
    induction l with
    | nil => rfl
    | cons hd tl ih =>
      obtain ⟨name, cert⟩ := hd
      by_cases hexp : now > cert.not_after - time_offset
      · rw [validity_check, if_pos hexp,
          List.find?_cons_of_pos _ (by simp [entryFails, hexp])]
        simp [if_pos hexp]
      · by_cases hnb : now < cert.not_before
        · rw [validity_check, if_neg hexp, if_pos hnb,
            List.find?_cons_of_pos _ (by simp [entryFails, hnb])]
          simp [if_neg hexp]
        · rw [validity_check, if_neg hexp, if_neg hnb,
            List.find?_cons_of_neg _ (by simp [entryFails, hexp, hnb])]
          exact ih
  refine ⟨h1, ?_⟩
  rw [validityCheckerRun, h1]
  cases hf : l.find? (entryFails time_offset now) with
  | none => rfl
  | some p =>
    obtain ⟨name, cert⟩ := p
    rfl

/-! ## Limit plugin (`src/plugin/limit.rs`)

The `pingora_limits::inflight::Inflight` table and its guard are external
library state; they are modelled from the spec ("maintains an inflight
counter per dimension value"; "the guard decrements the counter exactly
once" when dropped) as an exact per-key counter with explicit state
passing. Rust's scope-exit drop of an unstored guard is made explicit on
the error path of `incr`. -/

/-- `LimitTag`. -/
inductive LimitTag where
  | ip
  | requestHeader
  | cookie
  | query
deriving Repr, DecidableEq

/-- Static configuration of a `Limiter`; the mutable `inflight` field of
the source struct is passed explicitly through `incr` and `handle`. -/
structure Limiter where
  tag : LimitTag
  max : Int
  value : String

/-- The inflight counter table, keyed by dimension value. -/
def Inflight := String → Int

/-- The guard returned by `Inflight::incr`. -/
structure Guard where
  key : String
  amount : Int
deriving Repr, DecidableEq

/-- `Inflight::incr(key, value)`: returns the guard, the post-increment
count, and the updated table. -/
def Inflight.incr (inf : Inflight) (key : String) (amount : Int) :
    Guard × Int × Inflight :=
  (⟨key, amount⟩, inf key + amount,
    fun k => if k = key then inf k + amount else inf k)

/-- Dropping a guard decrements its key by the incremented amount. -/
def Guard.drop (g : Guard) (inf : Inflight) : Inflight :=
  fun k => if k = g.key then inf k - g.amount else inf k

/-- The per-request `State` fields used by the limit plugin. -/
structure State where
  client_ip : Option String := none
  guard : Option Guard := none

/-- Destroying the request state drops the stored guard, if any. -/
def stateDestroy (ctx : State) (inf : Inflight) : Inflight :=
  match ctx.guard with
  | some g => g.drop inf
  | none => inf

/-- The request data read by the extractors `util::get_query_value`,
`util::get_req_header_value`, `util::get_cookie_value` and
`util::get_client_ip`. -/
structure Session where
  queryValue : String → Option String
  headerValue : String → Option String
  cookieValue : String → Option String
  clientIp : String

/-- `Error::Exceed { max, value }`. -/
inductive LimitError where
  | exceed (max value : Int)
deriving Repr, DecidableEq

/-- The dimension value `Limiter::incr` extracts from the session
(`unwrap_or_default` turns a missing value into the empty string). -/
def extractedKey (l : Limiter) (s : Session) : String :=
  match l.tag with
  | .query => (s.queryValue l.value).getD ""
  | .requestHeader => (s.headerValue l.value).getD ""
  | .cookie => (s.cookieValue l.value).getD ""
  | .ip => s.clientIp

/-- In the Ip branch `incr` also records the client ip in the context. -/
def ipCtx (l : Limiter) (s : Session) (ctx : State) : State :=
  match l.tag with
  | .ip => { ctx with client_ip := some s.clientIp }
  | _ => ctx

/-- `Limiter::incr`: empty key is a no-op; otherwise increments, fails
with `Exceed` when the post-increment count is above `max` (the unstored
guard is dropped at scope exit, undoing the increment), and stores the
guard in the context otherwise. -/
def Limiter.incr (l : Limiter) (s : Session) (ctx : State) (inf : Inflight) :
    Except LimitError Unit × State × Inflight :=
  let key := extractedKey l s
  let ctx := ipCtx l s ctx
  if key = "" then
    (.ok (), ctx, inf)
  else
    let (guard, value, infIncr) := inf.incr key 1
    if value > l.max then
      (.error (.exceed l.max value), ctx, guard.drop infIncr)
    else
      (.ok (), { ctx with guard := some guard }, infIncr)

/-- `util::new_internal_error(status, message)`: an error that carries an
explicit HTTP status (here always 429) and the source error. -/
structure InternalError where
  status : Nat
  source_error : LimitError
deriving Repr, DecidableEq

/-- `Limiter::handle`: maps any `incr` error to a 429 internal error and
returns `Ok(false)` (continue) otherwise. -/
def Limiter.handle (l : Limiter) (s : Session) (ctx : State) (inf : Inflight) :
    Except InternalError Bool × State × Inflight :=
  match l.incr s ctx inf with
  | (.ok _, ctx', inf') => (.ok false, ctx', inf')
  | (.error e, ctx', inf') => (.error ⟨429, e⟩, ctx', inf')

/-- C3: for every request (any limiter, session, fresh request state,
inflight table) the counter of every key after `incr` followed by the
request-state destruction equals its value before the request: the guard
stored by `incr` is dropped exactly once when the state is destroyed, and
on the no-op and exceed paths nothing remains incremented. -/
theorem limiter_guard_restores_counter (l : Limiter) (s : Session)
    (ctx : State) (inf : Inflight) (k : String) (hg : ctx.guard = none) :
    stateDestroy (l.incr s ctx inf).2.1 (l.incr s ctx inf).2.2 k = inf k := by
  have hipg : (ipCtx l s ctx).guard = none := by
    rw [ipCtx]
    cases l.tag <;> simp [hg]
  rw [Limiter.incr]
  by_cases hkey : extractedKey l s = ""
  · rw [if_pos hkey, stateDestroy.eq_def, hipg]
  · rw [if_neg hkey]
    simp only [Inflight.incr]
    by_cases hmax : inf (extractedKey l s) + 1 > l.max
    · rw [if_pos hmax, stateDestroy.eq_def]
      rw [show ((Except.error (LimitError.exceed l.max
            (inf (extractedKey l s) + 1)), ipCtx l s ctx,
            Guard.drop ⟨extractedKey l s, 1⟩
              (fun k => if k = extractedKey l s
                then inf k + 1 else inf k)) :
          Except LimitError Unit × State × Inflight).2.1.guard = none from hipg]
      simp only [Guard.drop]
      by_cases hk : k = extractedKey l s <;> simp [hk]
    · rw [if_neg hmax, stateDestroy.eq_def]
      simp only [Guard.drop]
      by_cases hk : k = extractedKey l s <;> simp [hk]

/-- C3 (witness): the cookie limiter `~deviceId 10` on a session carrying
`Cookie: deviceId=abc`, a fresh state, the zero table, observed at key
`"abc"`. -/
theorem limiter_guard_restores_counter_witness :
    stateDestroy
      ((Limiter.mk .cookie 10 "deviceId").incr
        ⟨fun _ => none, fun _ => none,
          fun c => if c = "deviceId" then some "abc" else none, "127.0.0.1"⟩
        {} (fun _ => 0)).2.1
      ((Limiter.mk .cookie 10 "deviceId").incr
        ⟨fun _ => none, fun _ => none,
          fun c => if c = "deviceId" then some "abc" else none, "127.0.0.1"⟩
        {} (fun _ => 0)).2.2
      "abc" = 0 :=
  limiter_guard_restores_counter (Limiter.mk .cookie 10 "deviceId")
    ⟨fun _ => none, fun _ => none,
      fun c => if c = "deviceId" then some "abc" else none, "127.0.0.1"⟩
    {} (fun _ => 0) "abc" rfl

/-- C4: when the extracted dimension value is empty, `handle` is a no-op
returning Continue (`Ok(false)`) with the table untouched; when it is
non-empty the counter for the value is incremented and the post-increment
count `inf key + 1` decides the outcome: above `max` the request fails
with an internal error of status 429 carrying `Exceed`, otherwise the
request continues with the incremented counter and the guard stored in
the state. -/
theorem limiter_handle_spec (l : Limiter) (s : Session) (ctx : State)
    (inf : Inflight) :
    (extractedKey l s = "" →
      l.handle s ctx inf = (.ok false, ipCtx l s ctx, inf)) ∧
    (extractedKey l s ≠ "" → inf (extractedKey l s) + 1 > l.max →
      (l.handle s ctx inf).1
        = .error ⟨429, .exceed l.max (inf (extractedKey l s) + 1)⟩) ∧
    (extractedKey l s ≠ "" → ¬ inf (extractedKey l s) + 1 > l.max →
      (l.handle s ctx inf).1 = .ok false ∧
      (l.handle s ctx inf).2.2 (extractedKey l s)
        = inf (extractedKey l s) + 1 ∧
      (l.handle s ctx inf).2.1.guard = some ⟨extractedKey l s, 1⟩) := by
  refine ⟨?_, ?_, ?_⟩
  · intro hkey
    rw [Limiter.handle, Limiter.incr, if_pos hkey]
  · intro hkey hmax
    rw [Limiter.handle, Limiter.incr, if_neg hkey]
    simp only [Inflight.incr]
    rw [if_pos hmax]
  · intro hkey hmax
    rw [Limiter.handle, Limiter.incr, if_neg hkey]
    simp only [Inflight.incr]
    rw [if_neg hmax]
    refine ⟨rfl, ?_, rfl⟩
    simp

/-- C4 (witness): the cookie limiter `~deviceId 10` with value `"abc"` on
the zero table (non-empty key, below max: continue, counter 1, guard
stored); its first conjunct also applies to the session without the
cookie. -/
theorem limiter_handle_spec_witness :
    ((Limiter.mk .cookie 10 "deviceId").handle
        ⟨fun _ => none, fun _ => none,
          fun c => if c = "deviceId" then some "abc" else none, "127.0.0.1"⟩
        {} (fun _ => 0)).1 = .ok false ∧
    ((Limiter.mk .cookie 10 "deviceId").handle
        ⟨fun _ => none, fun _ => none,
          fun c => if c = "deviceId" then some "abc" else none, "127.0.0.1"⟩
        {} (fun _ => 0)).2.2 "abc" = 1 ∧
    ((Limiter.mk .cookie 10 "deviceId").handle
        ⟨fun _ => none, fun _ => none,
          fun c => if c = "deviceId" then some "abc" else none, "127.0.0.1"⟩
        {} (fun _ => 0)).2.1.guard = some ⟨"abc", 1⟩ := by
  obtain ⟨-, -, h3⟩ :=
    limiter_handle_spec (Limiter.mk .cookie 10 "deviceId")
      ⟨fun _ => none, fun _ => none,
        fun c => if c = "deviceId" then some "abc" else none, "127.0.0.1"⟩
      {} (fun _ => 0)
  obtain ⟨ha, hb, hc⟩ := h3 (by decide) (by decide)
  exact ⟨ha, hb, hc⟩

/-! ## Proxy error mapping (`Server::fail_to_proxy`, src/proxy/server.rs) -/

/-- The pingora error kinds `fail_to_proxy` distinguishes; every variant
not matched by name falls under `other`. -/
inductive ErrorType where
  | httpStatus (code : Nat)
  | readError
  | writeError
  | connectionClosed
  | other (name : String)
deriving Repr, DecidableEq

/-- `pingora::ErrorSource`. -/
inductive ErrorSource where
  | upstream
  | downstream
  | internal
  | unset
deriving Repr, DecidableEq

/-- A pingora error as observed by `fail_to_proxy`: its type, its source
and its `to_string()` rendering. -/
structure PingoraError where
  etype : ErrorType
  esource : ErrorSource
  display : String
deriving Repr, DecidableEq

/-- The generated error response: status, HTML body, and the keep-alive
setting after `set_keepalive(None)`. -/
structure ErrorResponse where
  status : Nat
  body : String
  keepalive : Option Nat
deriving Repr, DecidableEq

/-- `Server::fail_to_proxy`: computes the response code from the error,
substitutes `{{version}}` and `{{content}}` in the error template,
disables keep-alive and attempts to write the response (the `some`
response models that a write is attempted for every error), returning the
code. -/
def fail_to_proxy (error_template version : String) (e : PingoraError) :
    Nat × Option ErrorResponse :=
  let code := match e.etype with
    | .httpStatus c => c
    | _ =>
      match e.esource with
      | .upstream => 502
      | .downstream =>
        match e.etype with
        | .writeError | .readError => 500
        | .connectionClosed => 499
        | _ => 400
      | .internal | .unset => 500
  let content := (error_template.replace "\x7b\x7bversion\x7d\x7d" version).replace
    "\x7b\x7bcontent\x7d\x7d" e.display
  (code, some { status := code, body := content, keepalive := none })

/-- The spec's error-mapping table, written from its words: an explicit
HTTP status from a plugin yields that status; an upstream-sourced error
502; a downstream read or write error 500; a downstream connection closed
by the peer 499; any other downstream error 400; internal or unclassified
errors 500. -/
def specErrorStatus (e : PingoraError) : Nat :=
  match e.etype with
  | .httpStatus c => c
  | _ =>
    match e.esource with
    | .upstream => 502
    | .downstream =>
      match e.etype with
      | .writeError => 500
      | .readError => 500
      | .connectionClosed => 499
      | _ => 400
    | .internal => 500
    | .unset => 500

/-- C2 (counterexample): for a downstream connection-closed error the code
is 499 — and a response write is still attempted (with keep-alive
disabled and the substituted template body), refuting "for the 499 case
no response is attempted". -/
theorem fail_to_proxy_attempts_response_on_499 :
    (fail_to_proxy "<html>errpage</html>" "0.1.1"
        ⟨.connectionClosed, .downstream, "connection closed"⟩).1 = 499 ∧
    (fail_to_proxy "<html>errpage</html>" "0.1.1"
        ⟨.connectionClosed, .downstream, "connection closed"⟩).2.isSome
      = true ∧
    (fail_to_proxy "<html>errpage</html>" "0.1.1"
        ⟨.connectionClosed, .downstream, "connection closed"⟩).2
      ≠ none := by
  refine ⟨rfl, rfl, ?_⟩
  intro h
  exact Option.noConfusion h

/-- C2 (amended): `fail_to_proxy` maps every error to the specified
response status — explicit HTTP status from a plugin yields that status
(e.g. `Fail(429, "x")` yields 429), upstream errors 502, downstream read
or write errors 500, a downstream connection closed by the peer 499, any
other downstream error 400, internal or unclassified errors 500 — and for
every error, the 499 case included, it attempts to write a response whose
status is that code, whose body is the HTML error template with
`{{version}}` and `{{content}}` substituted (so it contains the error
message), and whose keep-alive is disabled. -/
theorem fail_to_proxy_error_mapping (error_template version : String)
    (e : PingoraError) :
    (fail_to_proxy error_template version e).1 = specErrorStatus e ∧
    (fail_to_proxy error_template version e).2
      = some { status := specErrorStatus e,
               body := (error_template.replace "\x7b\x7bversion\x7d\x7d"
                   version).replace "\x7b\x7bcontent\x7d\x7d" e.display,
               keepalive := none } := by
  obtain ⟨etype, esource, display⟩ := e
  cases etype <;> cases esource <;>
    exact ⟨rfl, rfl⟩

/-! ## Expression-filter plugin (`src/plugin/wirefilter_plugin.rs`) -/

/-- Wirefilter schema types. -/
inductive FieldType where
  | tBytes
  | tBool
  | tIp
  | tInt
deriving Repr, DecidableEq

/-- Runtime values passed to `set_field_value` (via `Into<LhsValue>`):
a Rust `&str` becomes `Bytes`, a `bool` becomes `Bool`. -/
inductive FieldVal where
  | bytes (s : String)
  | boolean (b : Bool)
  | int (n : Int)
deriving Repr, DecidableEq

/-- The `LhsValue` type of a runtime value. -/
def FieldVal.typeOf : FieldVal → FieldType
  | .bytes _ => .tBytes
  | .boolean _ => .tBool
  | .int _ => .tInt

/-- The schema declared by `get_scheme()`. -/
def wirefilterScheme (field : String) : Option FieldType :=
  if field = "http.cookie" then some .tBytes
  else if field = "http.host" then some .tBytes
  else if field = "http.referer" then some .tBytes
  else if field = "http.request.full_uri" then some .tBytes
  else if field = "http.request.method" then some .tBytes
  else if field = "http.request.uri" then some .tBytes
  else if field = "http.request.uri.path" then some .tBytes
  else if field = "http.request.uri.query" then some .tBytes
  else if field = "http.user_agent" then some .tBytes
  else if field = "http.x_forwarded_for" then some .tBytes
  else if field = "ip.src" then some .tIp
  else if field = "ip.geoip.asnum" then some .tInt
  else if field = "ip.geoip.country" then some .tBytes
  else if field = "ssl" then some .tBool
  else none

/-- The request data `handle_request` reads from the live session. Header
names are stored lowercase, as the HTTP header map does. -/
structure ReqHeader where
  headers : List (String × String)
  uriFull : String
  method : String
  pathAndQuery : String
  path : String
  query : Option String
  clientAddr : String

/-- `headers.contains_key(name)`: header-name comparison is
case-insensitive, names being stored lowercase. -/
def containsKey (hs : List (String × String)) (name : String) : Bool :=
  (hs.lookup name.toLower).isSome

/-- The execution context: the schema fields that have been set. -/
def ExecutionContext := List (String × FieldVal)

/-- `ctx.set_field_value(field, value)` with its result discarded
(`let _ =` in the source): the value is stored only when its `LhsValue`
type matches the field's declared schema type; otherwise the call fails
and the field stays unset. -/
def setFieldValue (ctx : ExecutionContext) (field : String) (v : FieldVal) :
    ExecutionContext :=
  match wirefilterScheme field with
  | some t => if v.typeOf = t then (field, v) :: ctx else ctx
  | none => ctx

/-- The execution context built by `handle_request` for one request: the
exact sequence of `set_field_value` calls of the source, including the
presence booleans for host/referer/x-forwarded-for, the literal header
name for `http.user_agent` (`USER_AGENT.as_str()`), and the client
address string for the `Ip`-typed `ip.src`. -/
def bindExecutionContext (r : ReqHeader) : ExecutionContext :=
  let ctx : ExecutionContext := []
  let ctx := setFieldValue ctx "http.host"
    (.boolean (containsKey r.headers "host"))
  let ctx := setFieldValue ctx "http.referer"
    (.boolean (containsKey r.headers "Referer"))
  let ctx := setFieldValue ctx "http.request.full_uri" (.bytes r.uriFull)
  let ctx := setFieldValue ctx "http.request.method" (.bytes r.method)
  let ctx := setFieldValue ctx "http.request.uri" (.bytes r.pathAndQuery)
  let ctx := setFieldValue ctx "http.request.uri.path" (.bytes r.path)
  let ctx := setFieldValue ctx "http.request.uri.query"
    (.bytes (r.query.getD ""))
  let ctx := setFieldValue ctx "http.user_agent" (.bytes "user-agent")
  let ctx := setFieldValue ctx "http.x_forwarded_for"
    (.boolean (containsKey r.headers "X-Forwarded-For"))
  let ctx := setFieldValue ctx "ip.src" (.bytes r.clientAddr)
  setFieldValue ctx "ssl" (.boolean (containsKey r.headers "ssl"))

/-- The value bound to a schema field for this request. -/
def fieldValue (r : ReqHeader) (field : String) : Option FieldVal :=
  (bindExecutionContext r).lookup field

/-- Plugin steps at which the plugin may run. -/
inductive PluginStep where
  | request
  | proxyUpstream
deriving Repr, DecidableEq

/-- An HTTP response produced by a plugin. -/
structure HttpResponse where
  status : Nat
  body : String
deriving Repr, DecidableEq

/-- A compiled restriction expression, abstracted as its evaluation
against an execution context; `none` models `filter.execute(&ctx)`
failing (for instance when the expression uses a field the context never
set) and the subsequent `.unwrap()` panic. -/
def CompiledFilter := ExecutionContext → Option Bool

/-- The plugin: step, compiled restriction expressions, forbidden
response. -/
structure WirefilterPlugin where
  plugin_step : PluginStep
  filters : List CompiledFilter
  forbidden_resp : HttpResponse

/-- `TryFrom<&PluginConf>`: the forbidden response always has status 403
(`StatusCode::FORBIDDEN`) and the configured message, defaulted when
empty. -/
def WirefilterPlugin.make (step : PluginStep) (filters : List CompiledFilter)
    (message : String) : WirefilterPlugin :=
  ⟨step, filters,
    ⟨403, if message = "" then "Ha ha ha... Request is forbidden"
      else message⟩⟩

/-- Evaluates every compiled expression in order; a failing evaluation
panics the handler (`.unwrap()`), otherwise reports whether any
matched. -/
def evalFilters : List CompiledFilter → ExecutionContext → Option Bool
  | [], _ => some false
  | f :: rest, ctx =>
    match f ctx with
    | none => none
    | some b =>
      match evalFilters rest ctx with
      | none => none
      | some bs => some (b || bs)

/-- The debug HTML body `handle_request` builds: the allow flag, the uri,
and the enumerated request headers. -/
def debugMessage (r : ReqHeader) (allow : Bool) : String :=
  "<html><head><title>Wire</title></head><body>"
    ++ "<h1>Request forbidden - " ++ toString allow ++ "</h1>"
    ++ "0. uri = " ++ r.uriFull ++ "<br>"
    ++ String.join (r.headers.enum.map (fun p =>
        toString (p.1 + 1) ++ ". " ++ p.2.1 ++ " = " ++ p.2.2 ++ "<br>"))
    ++ "</body></html>"

/-- `WirefilterPlugin::handle_request`: a no-op unless the step matches;
otherwise binds the execution context from the live request, evaluates
every expression (the outer `none` models the `.unwrap()` panic), and
short-circuits with the forbidden response — its body replaced by the
debug message — exactly when at least one expression matched. -/
def WirefilterPlugin.handle_request (p : WirefilterPlugin)
    (step : PluginStep) (r : ReqHeader) : Option (Option HttpResponse) :=
  if step ≠ p.plugin_step then
    some none
  else
    let ctx := bindExecutionContext r
    match evalFilters p.filters ctx with
    | none => none
    | some anyMatch =>
      if anyMatch then
        some (some { p.forbidden_resp with body := debugMessage r false })
      else
        some none

/-- The request of the limit-plugin test session, reused as a concrete
request. -/
def sampleRequest : ReqHeader :=
  { headers := [("host", "github.com"), ("referer", "https://github.com/"),
      ("user-agent", "pingap/0.1.1"), ("cookie", "deviceId=abc"),
      ("x-forwarded-for", "1.1.1.1, 192.168.1.2")],
    uriFull := "/vicanso/pingap?key=1",
    method := "GET",
    pathAndQuery := "/vicanso/pingap?key=1",
    path := "/vicanso/pingap",
    query := some "key=1",
    clientAddr := "127.0.0.1" }

/-- C5 (counterexample): on a live request with `User-Agent:
pingap/0.1.1`, `Host: github.com` and client address `127.0.0.1`, the
plugin binds `http.user_agent` to the literal header name
`"user-agent"`, not the request's user-agent value, and leaves
`http.host` (set to a presence boolean rejected by the `Bytes`-typed
schema) and `ip.src` (set to a byte string rejected by the `Ip`-typed
schema) unset — refuting "binds each schema field to the corresponding
value taken from the live request". -/
theorem wirefilter_binding_counterexample :
    fieldValue sampleRequest "http.user_agent"
      = some (.bytes "user-agent") ∧
    ¬ fieldValue sampleRequest "http.user_agent"
      = some (.bytes "pingap/0.1.1") ∧
    fieldValue sampleRequest "http.host" = none ∧
    ¬ fieldValue sampleRequest "http.host" = some (.bytes "github.com") ∧
    fieldValue sampleRequest "ip.src" = none := by
  refine ⟨rfl, ?_, rfl, ?_, rfl⟩
  · intro h
    rw [show fieldValue sampleRequest "http.user_agent"
        = some (.bytes "user-agent") from rfl] at h
    have h2 := Option.some.inj h
    have h3 := FieldVal.bytes.inj h2
    exact absurd h3 (by decide)
  · intro h
    rw [show fieldValue sampleRequest "http.host" = none from rfl] at h
    exact Option.noConfusion h

/-- C5 (amended): at request time the plugin binds `http.request.full_uri`,
`http.request.method`, `http.request.uri`, `http.request.uri.path` and
`http.request.uri.query` from the live request and `ssl` to the presence
of a header named `ssl`; it binds `http.user_agent` to the literal header
name `"user-agent"`, and the header-presence booleans supplied for
`http.host`, `http.referer` and `http.x_forwarded_for` and the byte
string supplied for the `Ip`-typed `ip.src` are rejected by the typed
schema, leaving those fields (and the never-set `http.cookie` and geoip
fields) unbound; when the step matches and every compiled expression
evaluates, the request is rejected with the forbidden response (status
always 403, body the debug message) exactly when at least one expression
matches, and on a non-matching step the plugin is a no-op. -/
theorem wirefilter_handle_request_spec
    (sp : PluginStep) (filters : List CompiledFilter) (message : String)
    (r : ReqHeader) (m : Bool) (stepOther : PluginStep)
    (heval : evalFilters filters (bindExecutionContext r) = some m)
    (hne : stepOther ≠ sp) :
    (fieldValue r "http.host" = none ∧
      fieldValue r "http.referer" = none ∧
      fieldValue r "http.x_forwarded_for" = none ∧
      fieldValue r "ip.src" = none ∧
      fieldValue r "http.cookie" = none ∧
      fieldValue r "ip.geoip.asnum" = none ∧
      fieldValue r "ip.geoip.country" = none) ∧
    (fieldValue r "http.user_agent" = some (.bytes "user-agent") ∧
      fieldValue r "http.request.full_uri" = some (.bytes r.uriFull) ∧
      fieldValue r "http.request.method" = some (.bytes r.method) ∧
      fieldValue r "http.request.uri" = some (.bytes r.pathAndQuery) ∧
      fieldValue r "http.request.uri.path" = some (.bytes r.path) ∧
      fieldValue r "http.request.uri.query"
        = some (.bytes (r.query.getD "")) ∧
      fieldValue r "ssl" = some (.boolean (containsKey r.headers "ssl"))) ∧
    (WirefilterPlugin.make sp filters message).handle_request sp r
      = (if m then some (some ⟨403, debugMessage r false⟩) else some none) ∧
    (WirefilterPlugin.make sp filters message).handle_request stepOther r
      = some none := by
  refine ⟨⟨rfl, rfl, rfl, rfl, rfl, rfl, rfl⟩,
    ⟨rfl, rfl, rfl, rfl, rfl, rfl, rfl⟩, ?_, ?_⟩
  · rw [WirefilterPlugin.handle_request]
    rw [if_neg (show ¬ sp ≠ (WirefilterPlugin.make sp filters
        message).plugin_step from by
      intro hh
      exact hh rfl)]
    show (match evalFilters filters (bindExecutionContext r) with
      | none => none
      | some anyMatch =>
        if anyMatch then
          some (some { (WirefilterPlugin.make sp filters
              message).forbidden_resp with body := debugMessage r false })
        else some none) = _
    rw [heval]
    cases m
    · rfl
    · rfl
  · rw [WirefilterPlugin.handle_request]
    rw [if_pos (show stepOther ≠ (WirefilterPlugin.make sp filters
        message).plugin_step from hne)]

/-- C5 (witness): the amended specification at the sample request, a
single always-matching expression, the request step and the
proxy-upstream step. -/
theorem wirefilter_handle_request_spec_witness :
    (fieldValue sampleRequest "http.host" = none ∧
      fieldValue sampleRequest "http.referer" = none ∧
      fieldValue sampleRequest "http.x_forwarded_for" = none ∧
      fieldValue sampleRequest "ip.src" = none ∧
      fieldValue sampleRequest "http.cookie" = none ∧
      fieldValue sampleRequest "ip.geoip.asnum" = none ∧
      fieldValue sampleRequest "ip.geoip.country" = none) ∧
    (fieldValue sampleRequest "http.user_agent"
        = some (.bytes "user-agent") ∧
      fieldValue sampleRequest "http.request.full_uri"
        = some (.bytes sampleRequest.uriFull) ∧
      fieldValue sampleRequest "http.request.method"
        = some (.bytes sampleRequest.method) ∧
      fieldValue sampleRequest "http.request.uri"
        = some (.bytes sampleRequest.pathAndQuery) ∧
      fieldValue sampleRequest "http.request.uri.path"
        = some (.bytes sampleRequest.path) ∧
      fieldValue sampleRequest "http.request.uri.query"
        = some (.bytes (sampleRequest.query.getD "")) ∧
      fieldValue sampleRequest "ssl"
        = some (.boolean (containsKey sampleRequest.headers "ssl"))) ∧
    (WirefilterPlugin.make .request [fun _ => some true]
        "").handle_request .request sampleRequest
      = (if true then
          some (some ⟨403, debugMessage sampleRequest false⟩)
        else some none) ∧
    (WirefilterPlugin.make .request [fun _ => some true]
        "").handle_request .proxyUpstream sampleRequest
      = some none :=
  wirefilter_handle_request_spec .request [fun _ => some true] ""
    sampleRequest true .proxyUpstream rfl (by decide)

end Pingap
